import Mathlib

/-!
Shallow embedding of the HR_Management employee-search backend
(Django project `hr_backend`, app `employee_search`) in Lean 4.

Source files embedded:
- `src/employee_search/models.py` (Organization, OrganizationConfig,
  Employee, RateLimitRecord)
- `src/hr_backend/employee_search/serializers.py`
  (DynamicEmployeeSerializer, EmployeeSearchSerializer)
- `src/hr_backend/employee_search/views.py` (search_employees)
- `src/hr_backend/employee_search/middleware.py` (RateLimitMiddleware)

Conventions: database tables are lists of records; timestamps are integers
(seconds); query strings are `String`; `None`/missing values are `Option`.
-/

namespace HR

/-! ### Basic string helpers (Python `in` on lowercased strings, `startswith`) -/

/-- Case conversion on a string, via `Char.toLower` on each character
(model of Python `str.lower()` for the ASCII data used here). -/
def strLower (s : String) : List Char :=
  s.data.map Char.toLower

/-- Prefix test on char lists (model of Python `str.startswith`). -/
def charsStartWith : List Char → List Char → Bool
  | _, [] => true
  | [], _ :: _ => false
  | c :: cs, d :: ds => c = d && charsStartWith cs ds

/-- Contiguous-substring test on char lists (model of Python `in`). -/
def charsContain : List Char → List Char → Bool
  | [], needle => needle.isEmpty
  | h :: hs, needle => charsStartWith (h :: hs) needle || charsContain hs needle

/-- Case-insensitive substring match: model of the Django `__icontains`
lookup used by the search filters. -/
def icontains (hay term : String) : Bool :=
  charsContain (strLower hay) (strLower term)

/-- Model of Python `str.startswith` on strings. -/
def strStartsWith (s p : String) : Bool :=
  charsStartWith s.data p.data

/-- Lexicographic comparison of char lists via `Char` code points
(model of database string collation for `order_by`). -/
def charsLe : List Char → List Char → Bool
  | [], _ => true
  | _ :: _, [] => false
  | c :: cs, d :: ds =>
    if c = d then charsLe cs ds else decide (c < d)

/-! ### Data model (`src/employee_search/models.py`) -/

/-- Model of `Organization`: uuid primary key, unique name, active flag. -/
structure Organization where
  id : String
  name : String
  is_active : Bool
deriving Repr, DecidableEq

/-- Model of `OrganizationConfig`: per-organization column configuration;
`organization` holds the owning organization id (OneToOneField). -/
structure OrganizationConfig where
  organization : String
  visible_columns : List String
  column_order : List String
deriving Repr, DecidableEq

/-- Keys of `OrganizationConfig.AVAILABLE_COLUMNS` from models.py. -/
def availableColumnKeys : List String :=
  ["first_name", "last_name", "email", "phone",
   "department", "position", "location", "status"]

/-- Model of `OrganizationConfig.get_default_columns`: the configured
visible columns when non-empty, else the canonical seven-field default. -/
def OrganizationConfig.get_default_columns (c : OrganizationConfig) : List String :=
  if c.visible_columns.isEmpty then
    ["first_name", "last_name", "email", "department", "position", "location", "status"]
  else
    c.visible_columns

/-- Model of `Employee`: all fields of the Django model, with the owning
organization id in `organization` and dates/timestamps as strings or ints
as serialized. -/
structure Employee where
  id : String
  organization : String
  first_name : String
  last_name : String
  email : String
  phone : Option String
  department : String
  position : String
  location : String
  status : String
  hire_date : String
  created_at : String
  updated_at : String
deriving Repr, DecidableEq

/-- `Employee.STATUS_CHOICES` keys from models.py. -/
def statusChoices : List String :=
  ["active", "inactive", "terminated", "on_leave"]

/-- Model of the `Employee.full_name` property. -/
def Employee.full_name (e : Employee) : String :=
  e.first_name ++ " " ++ e.last_name

/-- Model of `Employee.to_dict`: the full data dictionary built first. -/
def Employee.to_dict_full (e : Employee) : List (String × Option String) :=
  [("id", some e.id),
   ("first_name", some e.first_name),
   ("last_name", some e.last_name),
   ("email", some e.email),
   ("phone", e.phone),
   ("department", some e.department),
   ("position", some e.position),
   ("location", some e.location),
   ("status", some e.status),
   ("hire_date", some e.hire_date)]

/-- Model of `Employee.to_dict(visible_columns)`: keep the requested keys
that exist in the data dictionary, in `visible_columns` order; with no
(or an empty) list the full dictionary is returned. -/
def Employee.to_dict (e : Employee) (visible_columns : Option (List String)) :
    List (String × Option String) :=
  match visible_columns with
  | some vs =>
    if vs.isEmpty then e.to_dict_full
    else
      (vs.filter (fun k => (e.to_dict_full.map Prod.fst).contains k)).map
        (fun k => (k, ((e.to_dict_full.find? (fun p => p.1 == k)).map Prod.snd).join))
  | none => e.to_dict_full

/-- Model of `RateLimitRecord`: request-counting ledger row. -/
structure RateLimitRecord where
  ip_address : String
  organization : Option String
  request_count : Nat
  window_start : Int
  last_request : Int
deriving Repr, DecidableEq

/-! ### Dynamic serializer (`serializers.py`, `DynamicEmployeeSerializer`) -/

/-- Field set of `DynamicEmployeeSerializer` before trimming: all model
fields of `Employee` (`fields = __all__`) plus the declared `full_name`. -/
def allSerializerFields : List String :=
  ["id", "organization", "first_name", "last_name", "full_name", "email",
   "phone", "department", "position", "location", "status", "hire_date",
   "created_at", "updated_at"]

/-- Model of the `allowed` set built in `DynamicEmployeeSerializer.__init__`:
the visible columns, always `id`, and `full_name` when both name parts
are allowed. Sets are represented as lists with membership. -/
def allowedSet (visible_columns : List String) : List String :=
  let a := "id" :: visible_columns
  if "first_name" ∈ a ∧ "last_name" ∈ a then "full_name" :: a else a

/-- Model of the field trimming in `DynamicEmployeeSerializer.__init__`:
fields outside `allowed` are popped; with a falsy (empty) column list no
trimming happens. -/
def dynamicVisibleFields (visible_columns : List String) : List String :=
  if visible_columns.isEmpty then allSerializerFields
  else allSerializerFields.filter (fun f => decide (f ∈ allowedSet visible_columns))

/-- Serialized value of one field of an employee, as rendered by
`DynamicEmployeeSerializer` (`phone` may be null). -/
def employeeFieldValue (e : Employee) : String → Option String
  | "id" => some e.id
  | "organization" => some e.organization
  | "first_name" => some e.first_name
  | "last_name" => some e.last_name
  | "full_name" => some e.full_name
  | "email" => some e.email
  | "phone" => e.phone
  | "department" => some e.department
  | "position" => some e.position
  | "location" => some e.location
  | "status" => some e.status
  | "hire_date" => some e.hire_date
  | "created_at" => some e.created_at
  | "updated_at" => some e.updated_at
  | _ => none

/-- Model of serializing one employee through `DynamicEmployeeSerializer`
constructed with `visible_columns`: one key/value pair per remaining field. -/
def dynamicSerialize (visible_columns : List String) (e : Employee) :
    List (String × Option String) :=
  (dynamicVisibleFields visible_columns).map (fun f => (f, employeeFieldValue e f))

/-- Key set of a serialized row. -/
def rowKeys (row : List (String × Option String)) : List String :=
  row.map Prod.fst

/-! ### Search-parameter validation (`serializers.py`, `EmployeeSearchSerializer`) -/

/-- Raw query parameters of a search request. Strings are `none` when the
query parameter is absent; the integers arrive already parsed. -/
structure RawSearchParams where
  search : Option String := none
  department : Option String := none
  position : Option String := none
  location : Option String := none
  status : Option String := none
  page : Option Int := none
  page_size : Option Int := none
deriving Repr, DecidableEq

/-- Validated search parameters (`validated_data` of
`EmployeeSearchSerializer`), with the declared defaults filled in. -/
structure SearchData where
  search : Option String
  department : Option String
  position : Option String
  location : Option String
  status : Option String
  page : Int
  page_size : Int
deriving Repr, DecidableEq

/-- Validity of one optional `CharField` (DRF default `allow_blank=False`):
an absent value is fine, a present value must be non-blank. -/
def charFieldOk (v : Option String) : Bool :=
  match v with
  | none => true
  | some s => !s.isEmpty

/-- Validity of the `status` `ChoiceField`: absent, or one of the four
`STATUS_CHOICES` keys. -/
def statusFieldOk (v : Option String) : Bool :=
  match v with
  | none => true
  | some s => decide (s ∈ statusChoices)

/-- The per-field validation errors of `EmployeeSearchSerializer` as the
list of offending field names (DRF reports every invalid field). -/
def searchParamErrors (raw : RawSearchParams) : List String :=
  (if charFieldOk raw.search then [] else ["search"]) ++
  (if charFieldOk raw.department then [] else ["department"]) ++
  (if charFieldOk raw.position then [] else ["position"]) ++
  (if charFieldOk raw.location then [] else ["location"]) ++
  (if statusFieldOk raw.status then [] else ["status"]) ++
  (match raw.page with
   | none => []
   | some p => if 1 ≤ p then [] else ["page"]) ++
  (match raw.page_size with
   | none => []
   | some n => if 1 ≤ n ∧ n ≤ 100 then [] else ["page_size"])

/-- Model of `EmployeeSearchSerializer.is_valid` plus `validated_data`:
validation fails with the offending field names when any field is
invalid; on success the defaults `page=1`, `page_size=50` are applied. -/
def validateSearchParams (raw : RawSearchParams) :
    Except (List String) SearchData :=
  if (searchParamErrors raw).isEmpty then
    .ok { search := raw.search, department := raw.department,
          position := raw.position, location := raw.location,
          status := raw.status,
          page := raw.page.getD 1, page_size := raw.page_size.getD 50 }
  else
    .error (searchParamErrors raw)

/-! ### Search pipeline (`views.py`, `search_employees`) -/

/-- Model of `get_object_or_404(Organization, id=organization_id,
is_active=True)`: first active organization with the given id. -/
def resolveActiveOrg (orgs : List Organization) (orgId : String) :
    Option Organization :=
  orgs.find? (fun o => o.id == orgId && o.is_active)

/-- Model of `organization.config`: the organization's one-to-one
configuration row, when it exists. -/
def findConfig (configs : List OrganizationConfig) (orgId : String) :
    Option OrganizationConfig :=
  configs.find? (fun c => c.organization == orgId)

/-- Visible columns used by the view: `config.get_default_columns()` when a
configuration row exists, else the default list written literally in
`search_employees` (`except OrganizationConfig.DoesNotExist`). -/
def effectiveVisibleColumns (config : Option OrganizationConfig) : List String :=
  match config with
  | some c => c.get_default_columns
  | none =>
    ["first_name", "last_name", "email", "department",
     "position", "location", "status"]

/-- One optional filter of the chain (`if search_data.get(..):` guard):
apply the predicate when the parameter is present, else pass the
queryset through. -/
def optFilter (o : Option String) (p : String → Employee → Bool)
    (q : List Employee) : List Employee :=
  match o with
  | some t => q.filter (p t)
  | none => q

/-- Filter chain of `search_employees` applied to the employee table:
organization scoping first, then the optional conjunctive filters
(free-text disjunction over first name, last name, email; icontains on
department, position, location; exact match on status). -/
def applyFilters (db : List Employee) (orgId : String) (sd : SearchData) :
    List Employee :=
  let q := db.filter (fun e => e.organization == orgId)
  let q := optFilter sd.search
    (fun t e =>
      icontains e.first_name t || icontains e.last_name t || icontains e.email t) q
  let q := optFilter sd.department (fun t e => icontains e.department t) q
  let q := optFilter sd.position (fun t e => icontains e.position t) q
  let q := optFilter sd.location (fun t e => icontains e.location t) q
  optFilter sd.status (fun s e => e.status == s) q

/-- Ordering used by `order_by('last_name', 'first_name')`: by last name,
then first name. -/
def employeeLe (a b : Employee) : Bool :=
  if a.last_name = b.last_name then charsLe a.first_name.data b.first_name.data
  else charsLe a.last_name.data b.last_name.data

/-- Insert into a sorted list (helper of the sort modelling `order_by`). -/
def insertSorted (e : Employee) : List Employee → List Employee
  | [] => [e]
  | x :: xs => if employeeLe e x then e :: x :: xs else x :: insertSorted e xs

/-- Model of `order_by('last_name', 'first_name')`: stable insertion sort
by last name, then first name. -/
def orderEmployees : List Employee → List Employee
  | [] => []
  | x :: xs => insertSorted x (orderEmployees xs)

/-- Number of pages of the Django paginator: `ceil(max(1, count) / page_size)`
(an empty result set still has one empty first page). -/
def numPages (count : Nat) (page_size : Int) : Int :=
  (max 1 (count : Int) + page_size - 1) / page_size

/-- One page of results: rows `(page-1)*page_size .. page*page_size-1`. -/
def pageSlice (l : List Employee) (page page_size : Int) : List Employee :=
  (l.drop ((page - 1) * page_size).toNat).take page_size.toNat

/-- Employees that end up on the returned page for a given organization id
and validated parameters: filter, order, paginate. -/
def searchResultEmployees (db : List Employee) (orgId : String)
    (sd : SearchData) : List Employee :=
  pageSlice (orderEmployees (applyFilters db orgId sd)) sd.page sd.page_size

/-- Responses of the `search_employees` view, by the exit paths of
`views.py`: 200 with serialized rows and metadata, 400 with the invalid
fields, 404 for a missing or inactive organization, and the generic 500
produced by the outermost `except Exception` handler. -/
inductive SearchResponse where
  | ok (results : List (List (String × Option String))) (count : Nat)
      (visible_columns : List String) (orgId orgName : String)
  | badRequest (details : List String)
  | notFound
  | internalError
deriving Repr, DecidableEq

/-- HTTP status code of each view response. -/
def SearchResponse.httpStatus : SearchResponse → Nat
  | .ok _ _ _ _ _ => 200
  | .badRequest _ => 400
  | .notFound => 404
  | .internalError => 500

/-- Body `error` string of each non-200 view response, as written in
`views.py`. -/
def SearchResponse.errorText : SearchResponse → Option String
  | .ok _ _ _ _ _ => none
  | .badRequest _ => some "Invalid search parameters"
  | .notFound => some "Organization not found or inactive"
  | .internalError => some "Internal server error"

/-- Model of the `search_employees` view: resolve the active organization
(404 on failure), resolve visible columns, validate parameters (400 on
failure), filter and order, paginate (a page beyond the last raises the
paginator's `NotFound`, which only the outermost `except Exception`
catches, giving the generic 500), serialize the page dynamically. -/
def search_employees (orgs : List Organization)
    (configs : List OrganizationConfig) (db : List Employee)
    (orgId : String) (raw : RawSearchParams) : SearchResponse :=
  match resolveActiveOrg orgs orgId with
  | none => .notFound
  | some org =>
    let visible := effectiveVisibleColumns (findConfig configs org.id)
    match validateSearchParams raw with
    | .error errs => .badRequest errs
    | .ok sd =>
      let total := (orderEmployees (applyFilters db org.id sd)).length
      if numPages total sd.page_size < sd.page then
        .internalError
      else
        .ok ((searchResultEmployees db org.id sd).map (dynamicSerialize visible))
          total visible org.id org.name

/-! ### Rate-limit middleware (`middleware.py`, `RateLimitMiddleware`) -/

/-- Rate-limit settings (`RATE_LIMIT_REQUESTS_PER_MINUTE`,
`RATE_LIMIT_REQUESTS_PER_HOUR`; defaults 60 and 1000). -/
structure RateLimitConfig where
  requests_per_minute : Nat
  requests_per_hour : Nat
deriving Repr, DecidableEq

/-- The rate-limit ledger table (`rate_limit_records`). -/
abbrev LedgerState := List RateLimitRecord

/-- Model of the 429 `JsonResponse` built by `_rate_limit_response`:
status, `error`, `message`, and both configured limits. -/
structure MWResponse where
  httpStatus : Nat
  error : String
  message : String
  limits_requests_per_minute : Nat
  limits_requests_per_hour : Nat
deriving Repr, DecidableEq

/-- Model of `_rate_limit_response(ip_address)`. -/
def rateLimitResponse (ip : String) (cfg : RateLimitConfig) : MWResponse :=
  { httpStatus := 429,
    error := "Rate limit exceeded",
    message := "Too many requests from IP " ++ ip ++ ". Please try again later.",
    limits_requests_per_minute := cfg.requests_per_minute,
    limits_requests_per_hour := cfg.requests_per_hour }

/-- Model of `_should_skip_rate_limiting`: paths under the health or admin
roots bypass the limiter. -/
def shouldSkipRateLimiting (path : String) : Bool :=
  strStartsWith path "/api/v1/health/" || strStartsWith path "/admin/"

/-- Model of `_cleanup_old_records`: delete the ledger rows of this ip whose
`last_request` is older than 24 hours (86400 seconds) before now. -/
def cleanupOldRecords (ip : String) (now : Int) (s : LedgerState) : LedgerState :=
  s.filter (fun r => !(r.ip_address == ip && decide (r.last_request < now - 86400)))

/-- Model of Django `get_or_create(ip_address=.., organization=..,
defaults=..)`: return the first matching row unchanged, or append a fresh
row built from the defaults (with `last_request` set to now by
`auto_now`). Returns the row, the new table, and the created flag. -/
def getOrCreate (s : LedgerState) (ip : String) (org : Option String)
    (defCount : Nat) (now : Int) : RateLimitRecord × LedgerState × Bool :=
  match s.find? (fun r => r.ip_address == ip && r.organization == org) with
  | some r => (r, s, false)
  | none =>
    let r : RateLimitRecord :=
      { ip_address := ip, organization := org, request_count := defCount,
        window_start := now, last_request := now }
    (r, s ++ [r], true)

/-- Model of `_count_requests_since`: sum of `request_count` over rows
matching the (ip, organization) pair with `last_request >= since`. -/
def countRequestsSince (s : LedgerState) (ip : String) (org : Option String)
    (since : Int) : Nat :=
  ((s.filter (fun r =>
      r.ip_address == ip && r.organization == org &&
        decide (since ≤ r.last_request))).map
    (fun r => r.request_count)).sum

/-- In-place `request_count += 1; last_request = now; save()` on the first
row matching the (ip, organization) pair. -/
def bumpFirstMatch (ip : String) (org : Option String) (now : Int) :
    LedgerState → LedgerState
  | [] => []
  | r :: rest =>
    if r.ip_address = ip ∧ r.organization = org then
      { r with request_count := r.request_count + 1, last_request := now } :: rest
    else
      r :: bumpFirstMatch ip org now rest

/-- Model of `_record_request`: get-or-create with `request_count=1`
defaults; when the row already existed, increment it and bump
`last_request`. -/
def recordRequest (s : LedgerState) (ip : String) (org : Option String)
    (now : Int) : LedgerState :=
  let (_, s1, created) := getOrCreate s ip org 1 now
  if created then s1 else bumpFirstMatch ip org now s1

/-- Model of `_is_rate_limited`: prune, get-or-create the zero row, compare
the one-minute window sum then the one-hour window sum against the
configured limits. Returns the decision and the table as mutated so far. -/
def isRateLimited (cfg : RateLimitConfig) (ip : String) (org : Option String)
    (now : Int) (s : LedgerState) : Bool × LedgerState :=
  let s1 := cleanupOldRecords ip now s
  let (_, s2, _) := getOrCreate s1 ip org 0 now
  let minuteRequests := countRequestsSince s2 ip org (now - 60)
  if cfg.requests_per_minute ≤ minuteRequests then (true, s2)
  else
    let hourRequests := countRequestsSince s2 ip org (now - 3600)
    if cfg.requests_per_hour ≤ hourRequests then (true, s2)
    else (false, s2)

/-- Model of `RateLimitMiddleware.process_request`: skip exempt paths
untouched; otherwise check the limits and either answer 429 or record the
request and let it through (`none` = request proceeds). -/
def processRequest (cfg : RateLimitConfig) (path ip : String)
    (org : Option String) (now : Int) (s : LedgerState) :
    Option MWResponse × LedgerState :=
  if shouldSkipRateLimiting path then (none, s)
  else
    match isRateLimited cfg ip org now s with
    | (true, s2) => (some (rateLimitResponse ip cfg), s2)
    | (false, s2) => (none, recordRequest s2 ip org now)

/-- Run a sequence of same-path, same-ip requests through the middleware at
the given times, collecting each decision and threading the ledger. -/
def runRequests (cfg : RateLimitConfig) (path ip : String)
    (org : Option String) : List Int → LedgerState →
    List (Option MWResponse) × LedgerState
  | [], s => ([], s)
  | t :: ts, s =>
    let (resp, s1) := processRequest cfg path ip org t s
    let (rest, s2) := runRequests cfg path ip org ts s1
    (resp :: rest, s2)

/-! ### Middleware with explicit storage failures (for the fail-open
analysis). Each database touch point can be made to raise; `try/except`
blocks in the source are modelled exactly where they stand. -/

/-- The storage operations of the middleware that can raise. -/
inductive StorageOp where
  | cleanupDelete
  | checkGetOrCreate
  | countQuery
  | recordWrite
deriving Repr, DecidableEq

/-- `_cleanup_old_records` under failure injection: its own `try/except`
swallows the error, leaving the table unchanged. -/
def cleanupOldRecordsE (fails : StorageOp → Bool) (ip : String) (now : Int)
    (s : LedgerState) : LedgerState :=
  if fails .cleanupDelete then s else cleanupOldRecords ip now s

/-- `_count_requests_since` under failure injection: its `try/except`
returns 0 on error. -/
def countRequestsSinceE (fails : StorageOp → Bool) (s : LedgerState)
    (ip : String) (org : Option String) (since : Int) : Nat :=
  if fails .countQuery then 0 else countRequestsSince s ip org since

/-- `_record_request` under failure injection: its `try/except` swallows
the error, leaving the table unchanged. -/
def recordRequestE (fails : StorageOp → Bool) (s : LedgerState) (ip : String)
    (org : Option String) (now : Int) : LedgerState :=
  if fails .recordWrite then s else recordRequest s ip org now

/-- `_is_rate_limited` under failure injection: the `get_or_create` at its
start sits outside any `try/except`, so its error propagates
(`Except.error`). -/
def isRateLimitedE (cfg : RateLimitConfig) (fails : StorageOp → Bool)
    (ip : String) (org : Option String) (now : Int) (s : LedgerState) :
    Except Unit (Bool × LedgerState) :=
  let s1 := cleanupOldRecordsE fails ip now s
  if fails .checkGetOrCreate then .error ()
  else
    let (_, s2, _) := getOrCreate s1 ip org 0 now
    let minuteRequests := countRequestsSinceE fails s2 ip org (now - 60)
    if cfg.requests_per_minute ≤ minuteRequests then .ok (true, s2)
    else
      let hourRequests := countRequestsSinceE fails s2 ip org (now - 3600)
      if cfg.requests_per_hour ≤ hourRequests then .ok (true, s2)
      else .ok (false, s2)

/-- `process_request` under failure injection: an uncaught storage error
escapes the middleware and the request fails (`Except.error`). -/
def processRequestE (cfg : RateLimitConfig) (fails : StorageOp → Bool)
    (path ip : String) (org : Option String) (now : Int) (s : LedgerState) :
    Except Unit (Option MWResponse × LedgerState) :=
  if shouldSkipRateLimiting path then .ok (none, s)
  else
    match isRateLimitedE cfg fails ip org now s with
    | .error e => .error e
    | .ok (true, s2) => .ok (some (rateLimitResponse ip cfg), s2)
    | .ok (false, s2) => .ok (none, recordRequestE fails s2 ip org now)

/-! ### Helper lemmas -/

theorem isEmpty_false_of_ne_nil {α : Type} {l : List α} (h : l ≠ []) :
    l.isEmpty = false := by
  cases l with
  | nil => exact absurd rfl h
  | cons a as => rfl

theorem rowKeys_dynamicSerialize (visible_columns : List String) (e : Employee) :
    rowKeys (dynamicSerialize visible_columns e) =
      dynamicVisibleFields visible_columns := by
  unfold rowKeys dynamicSerialize
  rw [List.map_map]
  have hcomp : (Prod.fst ∘ fun f => (f, employeeFieldValue e f)) = id :=
    funext fun f => rfl
  rw [hcomp, List.map_id]

/-! ### C2, C5, C6: projection claims -/

/-- C2: for every employee record and every non-empty `visible_columns`
list, every key of the projected output row lies in
`visible_columns ∪ \x7bid\x7d ∪ (\x7bfull_name\x7d when both first_name and
last_name are visible)`; no other field appears. -/
theorem projection_keyset_bound (e : Employee) (visible_columns : List String)
    (hne : visible_columns ≠ []) :
    ∀ k ∈ rowKeys (dynamicSerialize visible_columns e),
      k ∈ visible_columns ∨ k = "id" ∨
        (k = "full_name" ∧ "first_name" ∈ visible_columns ∧
          "last_name" ∈ visible_columns) := by
  intro k hk
  rw [rowKeys_dynamicSerialize, dynamicVisibleFields,
    if_neg (by simp [isEmpty_false_of_ne_nil hne])] at hk
  have hmem : k ∈ allowedSet visible_columns := by
    simpa using (List.mem_filter.mp hk).2
  simp only [allowedSet] at hmem
  split at hmem
  case isTrue h =>
    have h1 : "first_name" ∈ visible_columns := by
      have := h.1; simpa using this
    have h2 : "last_name" ∈ visible_columns := by
      have := h.2; simpa using this
    simp only [List.mem_cons] at hmem
    rcases hmem with rfl | rfl | hv
    · exact Or.inr (Or.inr ⟨rfl, h1, h2⟩)
    · exact Or.inr (Or.inl rfl)
    · exact Or.inl hv
  case isFalse h =>
    simp only [List.mem_cons] at hmem
    rcases hmem with rfl | hv
    · exact Or.inr (Or.inl rfl)
    · exact Or.inl hv

/-- Witness for C2: projecting a sample employee with only `email` visible. -/
def sampleEmployee : Employee :=
  { id := "e1", organization := "org1", first_name := "Alice",
    last_name := "Smith", email := "alice@example.com", phone := none,
    department := "Engineering", position := "Engineer", location := "NYC",
    status := "active", hire_date := "2020-01-01",
    created_at := "t0", updated_at := "t0" }

theorem projection_keyset_bound_witness :
    "email" ∈ ["email"] ∨ "email" = "id" ∨
      ("email" = "full_name" ∧ "first_name" ∈ ["email"] ∧
        "last_name" ∈ ["email"]) :=
  projection_keyset_bound sampleEmployee ["email"] (by simp) "email" (by decide)

/-- C5: for every employee record and every non-empty `visible_columns`
list, the projected output contains the key `id`, listed or not (the
dynamic serializer force-includes `id`). -/
theorem projection_includes_id (e : Employee) (visible_columns : List String)
    (hne : visible_columns ≠ []) :
    "id" ∈ rowKeys (dynamicSerialize visible_columns e) := by
  rw [rowKeys_dynamicSerialize, dynamicVisibleFields,
    if_neg (by simp [isEmpty_false_of_ne_nil hne])]
  refine List.mem_filter.mpr ⟨by simp [allSerializerFields], ?_⟩
  rw [decide_eq_true_eq]
  simp only [allowedSet]
  split <;> simp

theorem projection_includes_id_witness :
    "id" ∈ rowKeys (dynamicSerialize ["email"] sampleEmployee) :=
  projection_includes_id sampleEmployee ["email"] (by simp)

/-- C6: for every employee record and every non-empty `visible_columns`
list drawn from the recognized column keys, the projected output contains
`full_name` iff both `first_name` and `last_name` are visible. -/
theorem projection_full_name_iff (e : Employee) (visible_columns : List String)
    (hne : visible_columns ≠ [])
    (hrec : ∀ k ∈ visible_columns, k ∈ availableColumnKeys) :
    ("full_name" ∈ rowKeys (dynamicSerialize visible_columns e) ↔
      ("first_name" ∈ visible_columns ∧ "last_name" ∈ visible_columns)) := by
  rw [rowKeys_dynamicSerialize, dynamicVisibleFields,
    if_neg (by simp [isEmpty_false_of_ne_nil hne])]
  constructor
  · intro h
    have hmem : "full_name" ∈ allowedSet visible_columns := by
      simpa using (List.mem_filter.mp h).2
    simp only [allowedSet] at hmem
    split at hmem
    case isTrue hc =>
      exact ⟨by have := hc.1; simpa using this, by have := hc.2; simpa using this⟩
    case isFalse hc =>
      simp only [List.mem_cons] at hmem
      rcases hmem with h' | h'
      · exact absurd h' (by simp)
      · have := hrec _ h'
        simp [availableColumnKeys] at this
  · intro h
    refine List.mem_filter.mpr ⟨by simp [allSerializerFields], ?_⟩
    rw [decide_eq_true_eq]
    simp only [allowedSet]
    rw [if_pos ⟨List.mem_cons_of_mem _ h.1, List.mem_cons_of_mem _ h.2⟩]
    exact List.mem_cons_self _ _

theorem projection_full_name_iff_witness :
    ("full_name" ∈ rowKeys (dynamicSerialize ["first_name", "last_name"] sampleEmployee) ↔
      ("first_name" ∈ ["first_name", "last_name"] ∧
        "last_name" ∈ ["first_name", "last_name"])) :=
  projection_full_name_iff sampleEmployee ["first_name", "last_name"]
    (by simp) (by decide)

/-! ### C8: default visible columns -/

/-- C8: an empty configured visible-columns list resolves to the canonical
seven fields, both through `get_default_columns` and through the visible
columns the search view uses; with no configuration row at all the view
substitutes the same seven-field default. -/
theorem default_visible_columns :
    (∀ c : OrganizationConfig, c.visible_columns = [] →
      c.get_default_columns =
        ["first_name", "last_name", "email", "department", "position",
         "location", "status"]) ∧
    (∀ c : OrganizationConfig, c.visible_columns = [] →
      effectiveVisibleColumns (some c) =
        ["first_name", "last_name", "email", "department", "position",
         "location", "status"]) ∧
    effectiveVisibleColumns none =
      ["first_name", "last_name", "email", "department", "position",
       "location", "status"] := by
  refine ⟨?_, ?_, rfl⟩ <;> intro c h <;>
    simp [OrganizationConfig.get_default_columns, effectiveVisibleColumns, h]

theorem default_visible_columns_witness :
    OrganizationConfig.get_default_columns ⟨"org1", [], []⟩ =
      ["first_name", "last_name", "email", "department", "position",
       "location", "status"] :=
  default_visible_columns.1 ⟨"org1", [], []⟩ rfl

/-! ### Membership lemmas for the search pipeline -/

theorem mem_of_mem_optFilter {o : Option String} {p : String → Employee → Bool}
    {q : List Employee} {e : Employee} (h : e ∈ optFilter o p q) : e ∈ q := by
  cases o with
  | none => exact h
  | some t => exact (List.mem_filter.mp h).1

theorem mem_insertSorted {e x : Employee} {l : List Employee} :
    x ∈ insertSorted e l ↔ x = e ∨ x ∈ l := by
  induction l with
  | nil => simp [insertSorted]
  | cons a as ih =>
    simp only [insertSorted]
    split
    · simp [List.mem_cons]
    · simp only [List.mem_cons, ih]
      tauto

theorem mem_orderEmployees {x : Employee} {l : List Employee} :
    x ∈ orderEmployees l ↔ x ∈ l := by
  induction l with
  | nil => simp [orderEmployees]
  | cons a as ih => simp [orderEmployees, mem_insertSorted, ih]

theorem org_of_mem_applyFilters {db : List Employee} {orgId : String}
    {sd : SearchData} {e : Employee} (h : e ∈ applyFilters db orgId sd) :
    e.organization = orgId := by
  simp only [applyFilters] at h
  have h5 := mem_of_mem_optFilter (mem_of_mem_optFilter
    (mem_of_mem_optFilter (mem_of_mem_optFilter (mem_of_mem_optFilter h))))
  simpa using (List.mem_filter.mp h5).2

theorem mem_pageSlice {l : List Employee} {p ps : Int} {e : Employee}
    (h : e ∈ pageSlice l p ps) : e ∈ l := by
  unfold pageSlice at h
  exact List.drop_subset _ _ (List.take_subset _ _ h)

/-! ### C1: tenant isolation -/

/-- C1: every employee on a returned search page for organization A belongs
to A; for any other organization B, no employee of B is ever returned,
whatever the filters. -/
theorem tenant_isolation (db : List Employee) (A B : String) (sd : SearchData)
    (hAB : A ≠ B) :
    ∀ e ∈ searchResultEmployees db A sd,
      e.organization = A ∧ e.organization ≠ B := by
  intro e he
  simp only [searchResultEmployees] at he
  have h2 : e ∈ applyFilters db A sd := mem_orderEmployees.mp (mem_pageSlice he)
  have h3 := org_of_mem_applyFilters h2
  exact ⟨h3, by rw [h3]; exact hAB⟩

theorem tenant_isolation_witness :
    sampleEmployee.organization = "org1" ∧ sampleEmployee.organization ≠ "org2" :=
  tenant_isolation [sampleEmployee] "org1" "org2"
    ⟨none, none, none, none, none, 1, 50⟩ (by decide) sampleEmployee (by decide)

/-! ### C7: status validation -/

/-- C7: when the status parameter is outside the four-value enum (and the
organization resolves), the view answers 400 naming `status` among the
invalid fields, the employee table is never consulted, and no successful
response is produced. -/
theorem status_validation (orgs : List Organization)
    (configs : List OrganizationConfig) (db : List Employee)
    (orgId : String) (raw : RawSearchParams) (org : Organization) (s : String)
    (hOrg : resolveActiveOrg orgs orgId = some org)
    (hstat : raw.status = some s) (hbad : s ∉ statusChoices) :
    (∃ errs, search_employees orgs configs db orgId raw = .badRequest errs ∧
      "status" ∈ errs) ∧
    (∀ db' : List Employee,
      search_employees orgs configs db orgId raw =
        search_employees orgs configs db' orgId raw) ∧
    (∀ results count visible oid oname,
      search_employees orgs configs db orgId raw ≠
        .ok results count visible oid oname) := by
  have hwrong : statusFieldOk raw.status = false := by
    rw [hstat]
    show decide (s ∈ statusChoices) = false
    exact decide_eq_false hbad
  have hmem : "status" ∈ searchParamErrors raw := by
    simp [searchParamErrors, hwrong]
  have hne : searchParamErrors raw ≠ [] := List.ne_nil_of_mem hmem
  have hval : validateSearchParams raw = .error (searchParamErrors raw) := by
    unfold validateSearchParams
    rw [if_neg (by simp [isEmpty_false_of_ne_nil hne])]
  have hresp : search_employees orgs configs db orgId raw =
      .badRequest (searchParamErrors raw) := by
    simp only [search_employees, hOrg, hval]
  refine ⟨⟨searchParamErrors raw, hresp, hmem⟩, ?_, ?_⟩
  · intro db'
    rw [hresp]
    simp only [search_employees, hOrg, hval]
  · intro results count visible oid oname
    rw [hresp]
    simp

theorem status_validation_witness :
    (∃ errs, search_employees [⟨"org1", "Org One", true⟩] [] []
        "org1" { status := some "bogus" } = .badRequest errs ∧
      "status" ∈ errs) ∧
    (∀ db' : List Employee,
      search_employees [⟨"org1", "Org One", true⟩] [] []
          "org1" { status := some "bogus" } =
        search_employees [⟨"org1", "Org One", true⟩] [] db'
          "org1" { status := some "bogus" }) ∧
    (∀ results count visible oid oname,
      search_employees [⟨"org1", "Org One", true⟩] [] []
          "org1" { status := some "bogus" } ≠
        .ok results count visible oid oname) :=
  status_validation [⟨"org1", "Org One", true⟩] [] [] "org1"
    { status := some "bogus" } ⟨"org1", "Org One", true⟩ "bogus"
    rfl rfl (by decide)

/-! ### C10: page beyond the last page gives the generic 500 -/

/-- C10: with the organization resolved and parameters valid, a page number
beyond the number of available pages makes the paginator raise; only the
outermost handler catches it, so the response is the generic 500, not a
404 and not an empty 200. -/
theorem pagination_overflow (orgs : List Organization)
    (configs : List OrganizationConfig) (db : List Employee)
    (orgId : String) (raw : RawSearchParams) (org : Organization)
    (sd : SearchData)
    (hOrg : resolveActiveOrg orgs orgId = some org)
    (hVal : validateSearchParams raw = .ok sd)
    (hOver : numPages (orderEmployees (applyFilters db org.id sd)).length
      sd.page_size < sd.page) :
    search_employees orgs configs db orgId raw = .internalError ∧
    (search_employees orgs configs db orgId raw).httpStatus = 500 ∧
    (search_employees orgs configs db orgId raw).errorText =
      some "Internal server error" ∧
    search_employees orgs configs db orgId raw ≠ .notFound := by
  have h : search_employees orgs configs db orgId raw = .internalError := by
    simp only [search_employees, hOrg, hVal]
    rw [if_pos hOver]
  exact ⟨h, by rw [h]; rfl, by rw [h]; rfl, by rw [h]; simp⟩

theorem pagination_overflow_witness :
    search_employees [⟨"org1", "Org One", true⟩] [] [] "org1"
        { page := some 2, page_size := some 1 } = .internalError ∧
    (search_employees [⟨"org1", "Org One", true⟩] [] [] "org1"
        { page := some 2, page_size := some 1 }).httpStatus = 500 ∧
    (search_employees [⟨"org1", "Org One", true⟩] [] [] "org1"
        { page := some 2, page_size := some 1 }).errorText =
      some "Internal server error" ∧
    search_employees [⟨"org1", "Org One", true⟩] [] [] "org1"
        { page := some 2, page_size := some 1 } ≠ .notFound :=
  pagination_overflow [⟨"org1", "Org One", true⟩] [] [] "org1"
    { page := some 2, page_size := some 1 } ⟨"org1", "Org One", true⟩
    ⟨none, none, none, none, none, 2, 1⟩ rfl rfl (by decide)

/-! ### C9: pruning scope and frame -/

/-- C9: the pruning step deletes exactly the ledger rows whose ip equals
the requesting ip and whose `last_request` is older than 24 hours before
now — the organization plays no part — and every other row survives in
place (the result is a sublist of the table). -/
theorem pruning_scope_frame (p : String) (now : Int) (s : LedgerState) :
    (∀ r : RateLimitRecord, r ∈ cleanupOldRecords p now s ↔
      (r ∈ s ∧ ¬(r.ip_address = p ∧ r.last_request < now - 86400))) ∧
    (cleanupOldRecords p now s).Sublist s := by
  constructor
  · intro r
    rw [cleanupOldRecords, List.mem_filter]
    constructor
    · rintro ⟨h1, h2⟩
      refine ⟨h1, fun hc => ?_⟩
      simp [hc.1, hc.2] at h2
    · rintro ⟨h1, h2⟩
      refine ⟨h1, ?_⟩
      simp only [Bool.not_eq_true', Bool.and_eq_false_iff, beq_eq_false_iff_ne,
        decide_eq_false_iff_not]
      tauto
  · exact List.filter_sublist s

/-! ### C3: rate-limit threshold and health exemption -/

theorem charsStartWith_nil (l : List Char) : charsStartWith l [] = true := by
  cases l <;> rfl

theorem charsStartWith_append (l₁ l₂ : List Char) :
    charsStartWith (l₁ ++ l₂) l₁ = true := by
  induction l₁ with
  | nil => exact charsStartWith_nil l₂
  | cons c cs ih => simp [charsStartWith, ih]

theorem shouldSkip_health (suffix : String) :
    shouldSkipRateLimiting ("/api/v1/health/" ++ suffix) = true := by
  unfold shouldSkipRateLimiting strStartsWith
  rw [String.data_append, charsStartWith_append]
  rfl

theorem processRequest_fresh (cfg : RateLimitConfig) (path ip : String)
    (org : Option String) (t : Int)
    (hskip : shouldSkipRateLimiting path = false)
    (hrpm : 0 < cfg.requests_per_minute) (hrph : 0 < cfg.requests_per_hour) :
    processRequest cfg path ip org t [] =
      (none, [⟨ip, org, 1, t, t⟩]) := by
  have h60 : t - 60 ≤ t := by omega
  have hm : ¬(cfg.requests_per_minute ≤ 0) := by omega
  have hh : ¬(cfg.requests_per_hour ≤ 0) := by omega
  simp [processRequest, hskip, isRateLimited, cleanupOldRecords, getOrCreate,
    countRequestsSince, recordRequest, bumpFirstMatch, List.find?,
    h60, hm, hh]

theorem processRequest_under (cfg : RateLimitConfig) (path ip : String)
    (org : Option String) (now : Int) (k : Nat) (w tl : Int)
    (hskip : shouldSkipRateLimiting path = false)
    (hold : now - 86400 ≤ tl) (hmin : now - 60 ≤ tl)
    (hk1 : k < cfg.requests_per_minute) (hk2 : k < cfg.requests_per_hour) :
    processRequest cfg path ip org now [⟨ip, org, k, w, tl⟩] =
      (none, [⟨ip, org, k + 1, w, now⟩]) := by
  have hnot : ¬(tl < now - 86400) := by omega
  have hmin2 : now ≤ tl + 60 := by omega
  have hh2 : now ≤ tl + 3600 := by omega
  have hm1 : ¬(cfg.requests_per_minute ≤ k) := by omega
  have hm2 : ¬(cfg.requests_per_hour ≤ k) := by omega
  simp [processRequest, hskip, isRateLimited, cleanupOldRecords, getOrCreate,
    countRequestsSince, recordRequest, bumpFirstMatch, List.find?,
    hnot, hmin2, hh2, hm1, hm2]

theorem processRequest_deny (cfg : RateLimitConfig) (path ip : String)
    (org : Option String) (now : Int) (k : Nat) (w tl : Int)
    (hskip : shouldSkipRateLimiting path = false)
    (hold : now - 86400 ≤ tl) (hmin : now - 60 ≤ tl)
    (hk : cfg.requests_per_minute ≤ k) :
    processRequest cfg path ip org now [⟨ip, org, k, w, tl⟩] =
      (some (rateLimitResponse ip cfg), [⟨ip, org, k, w, tl⟩]) := by
  have hnot : ¬(tl < now - 86400) := by omega
  have hmin2 : now ≤ tl + 60 := by omega
  simp [processRequest, hskip, isRateLimited, cleanupOldRecords, getOrCreate,
    countRequestsSince, List.find?, hnot, hmin2, hk]

/-- C3: with `requests_per_minute = 3` (hour limit 1000), four requests
from one ip within sixty seconds on a rate-limited path get three passes
and then a denial whose response has status 429 and carries both
configured limits; any request on a path under the health root is never
denied and never counted (ledger unchanged). -/
theorem rate_limit_threshold_and_exemption (path ip : String)
    (org : Option String) (t1 t2 t3 t4 : Int)
    (hskip : shouldSkipRateLimiting path = false)
    (h12 : t1 ≤ t2) (h23 : t2 ≤ t3) (h34 : t3 ≤ t4) (hwin : t4 ≤ t1 + 60) :
    (runRequests ⟨3, 1000⟩ path ip org [t1, t2, t3, t4] []).1 =
      [none, none, none, some (rateLimitResponse ip ⟨3, 1000⟩)] ∧
    (rateLimitResponse ip ⟨3, 1000⟩).httpStatus = 429 ∧
    (rateLimitResponse ip ⟨3, 1000⟩).limits_requests_per_minute = 3 ∧
    (rateLimitResponse ip ⟨3, 1000⟩).limits_requests_per_hour = 1000 ∧
    (∀ (suffix : String) (st : LedgerState) (now : Int),
      processRequest ⟨3, 1000⟩ ("/api/v1/health/" ++ suffix) ip org now st =
        (none, st)) := by
  refine ⟨?_, rfl, rfl, rfl, ?_⟩
  · have s1 := processRequest_fresh ⟨3, 1000⟩ path ip org t1 hskip
      (by norm_num) (by norm_num)
    have s2 := processRequest_under ⟨3, 1000⟩ path ip org t2 1 t1 t1 hskip
      (by omega) (by omega) (by norm_num) (by norm_num)
    have s3 := processRequest_under ⟨3, 1000⟩ path ip org t3 2 t1 t2 hskip
      (by omega) (by omega) (by norm_num) (by norm_num)
    have s4 := processRequest_deny ⟨3, 1000⟩ path ip org t4 3 t1 t3 hskip
      (by omega) (by omega) (by norm_num)
    simp [runRequests, s1, s2, s3, s4]
  · intro suffix st now
    simp [processRequest, shouldSkip_health]

theorem rate_limit_threshold_and_exemption_witness :
    (runRequests ⟨3, 1000⟩ "/api/v1/organizations/org1/employees/search/"
      "1.2.3.4" none [0, 10, 20, 30] []).1 =
      [none, none, none, some (rateLimitResponse "1.2.3.4" ⟨3, 1000⟩)] :=
  (rate_limit_threshold_and_exemption
    "/api/v1/organizations/org1/employees/search/" "1.2.3.4" none 0 10 20 30
    (by decide) (by decide) (by decide) (by decide) (by decide)).1

/-! ### C4: failure semantics of the middleware storage operations -/

/-- C4 counterexample: a storage error raised by the fetch-or-create of the
check step (step 2 of the algorithm, the `get_or_create` at the top of
`_is_rate_limited`) sits outside every `try/except`, so it escapes the
middleware and the request fails instead of proceeding. -/
theorem failopen_counterexample :
    processRequestE ⟨60, 1000⟩ (fun op => op == StorageOp.checkGetOrCreate)
      "/api/v1/organizations/org1/employees/search/" "1.2.3.4" none 0 [] =
      .error () := by
  rfl

/-- C4 amended: as long as the check step's fetch-or-create does not fail,
every request gets an answer (no storage failure in pruning, counting or
recording escapes); and when the counting query fails, its handler returns
0, so the request proceeds as if under the limit. -/
theorem failopen_amended (cfg : RateLimitConfig) (fails : StorageOp → Bool)
    (path ip : String) (org : Option String) (now : Int) (s : LedgerState)
    (hchk : fails .checkGetOrCreate = false) :
    (∃ r, processRequestE cfg fails path ip org now s = .ok r) ∧
    (fails .countQuery = true → 0 < cfg.requests_per_minute →
      0 < cfg.requests_per_hour →
      ∃ s2, processRequestE cfg fails path ip org now s = .ok (none, s2)) := by
  have hiso : ∃ b s2, isRateLimitedE cfg fails ip org now s = .ok (b, s2) := by
    unfold isRateLimitedE
    rw [hchk]
    simp only [Bool.false_eq_true, if_false]
    split
    · exact ⟨_, _, rfl⟩
    · split
      · exact ⟨_, _, rfl⟩
      · exact ⟨_, _, rfl⟩
  constructor
  · by_cases hsk : shouldSkipRateLimiting path
    · exact ⟨(none, s), by simp [processRequestE, hsk]⟩
    · obtain ⟨b, s2, h⟩ := hiso
      cases b
      · exact ⟨(none, recordRequestE fails s2 ip org now),
          by simp [processRequestE, hsk, h]⟩
      · exact ⟨(some (rateLimitResponse ip cfg), s2),
          by simp [processRequestE, hsk, h]⟩
  · intro hcnt hm hh
    have h1 : ¬(cfg.requests_per_minute ≤ 0) := by omega
    have h2 : ¬(cfg.requests_per_hour ≤ 0) := by omega
    by_cases hsk : shouldSkipRateLimiting path
    · exact ⟨s, by simp [processRequestE, hsk]⟩
    · apply Exists.intro
      simp [processRequestE, isRateLimitedE, countRequestsSinceE, hsk, hchk,
        hcnt, h1, h2]
      rfl

theorem failopen_amended_witness :
    ∃ s2, processRequestE ⟨60, 1000⟩ (fun op => op == StorageOp.countQuery)
      "/api/v1/organizations/org1/employees/search/" "1.2.3.4" none 0 [] =
      .ok (none, s2) :=
  (failopen_amended ⟨60, 1000⟩ (fun op => op == StorageOp.countQuery)
    "/api/v1/organizations/org1/employees/search/" "1.2.3.4" none 0 []
    rfl).2 rfl (by norm_num) (by norm_num)
